import Mathlib

/-!
Verification of the reset coordination protocol in `demo/demo-worker.js`.

This file gives a shallow embedding of the `maybeReset` function of
`src/demo/demo-worker.js` and proves properties of it.

The source function (lines 126-177) runs once at worker startup:

* If the URL search parameter `reset` is absent, nothing happens at all.
* Otherwise it acquires the Web Locks lock `demo-worker-outer`
  (default mode `exclusive`, blocking) and keeps a releaser closure.
* It then requests `demo-worker-inner` with `{ ifAvailable: true }`
  (mode defaults to `exclusive`).  If granted, it clears OPFS and
  IndexedDB (the destructive-reset delegate) while holding the lock;
  the Web Locks API releases the lock when the callback's promise
  settles, whether it resolves or rejects.  If not granted, it logs a
  warning and skips the reset.
* It then requests `demo-worker-inner` again with
  `{ mode, ifAvailable: true }` where `mode` is `exclusive` when the
  `exclusive` search parameter is present and `shared` otherwise.  If
  granted it resolves and returns a never-settling promise, so the
  marker lock is held for the remainder of the worker's lifetime; if
  not granted it rejects with an error.
* Finally, on the path where every awaited step succeeded, it calls
  the stored releaser for the outer lock.

Two embeddings are developed:

1. a deterministic single-run model `maybeReset` producing the exact
   sequence of broker events of one run, parameterised by the
   environment's answers to the two `ifAvailable` requests and by
   whether the destructive delegate succeeds; and
2. a multi-context transition system `Step` in which several workers
   run the same protocol against one lock broker, used for the
   mutual-exclusion and marker-durability claims.
-/

/-- Web Locks lock mode (the `mode` option of `navigator.locks.request`). -/
inductive LockMode
  | exclusive
  | shared
deriving DecidableEq, Repr

/-- The two lock names used by `maybeReset`:
`demo-worker-outer` and `demo-worker-inner`. -/
inductive LockName
  | outer
  | inner
deriving DecidableEq, Repr

/-- The three `navigator.locks.request` call sites in `maybeReset`:
line 129 (outer serialization), line 136 (inner probe),
line 165 (inner marker). -/
inductive Site
  | outerSite
  | probeSite
  | markerSite
deriving DecidableEq, Repr

/-- Observable events of one run of `maybeReset`.

`request site name mode ifAvailable granted` records one
`navigator.locks.request` call: which call site issued it, the lock
name, the mode, whether `ifAvailable: true` was passed, and whether the
lock was granted.  `release name` records the lock becoming free again
(for Web Locks, the callback promise settling; for the outer lock, the
stored releaser being invoked).  `delegateRun ok` records the
destructive OPFS/IndexedDB clearing running and whether it completed
without error.  `warn` records the `console.warn` on the skip branch. -/
inductive Event
  | request (site : Site) (name : LockName) (mode : LockMode)
      (ifAvailable : Bool) (granted : Bool)
  | release (name : LockName)
  | delegateRun (ok : Bool)
  | warn
deriving DecidableEq, Repr

/-- How a run of `maybeReset` can fail: the rejection raised by the
destructive delegate (propagated through the probe request), or the
`new Error('failed to acquire inner lock')` rejection of the marker
phase. -/
inductive CoordError
  | delegateFailed
  | markerAcquisitionFailed
deriving DecidableEq, Repr

/-- The environment's answers to the nondeterministic points of one
run: whether the `ifAvailable` probe at line 136 is granted, whether
the OPFS/IndexedDB clearing completes without throwing, and whether
the `ifAvailable` marker request at line 165 is granted. -/
structure Env where
  innerProbeGranted : Bool
  delegateOk : Bool
  markerGranted : Bool
deriving DecidableEq, Repr

instance : DecidableEq (Except CoordError Unit) := fun a b => by
  cases a <;> cases b
  case ok.ok u v => cases u; cases v; exact isTrue rfl
  case error.error x y =>
    cases x <;> cases y <;> first
      | exact isTrue rfl
      | exact isFalse (by intro h; injection h with h; cases h)
  all_goals exact isFalse (by intro h; cases h)

/-- The mode computed at line 164:
`searchParams.has('exclusive') ? 'exclusive' : 'shared'`. -/
def markerMode (exclusiveParam : Bool) : LockMode :=
  if exclusiveParam then .exclusive else .shared

/-- Lines 163-173 of `demo-worker.js`: the marker acquisition.
The request is issued with `{ mode, ifAvailable: true }`.  When
granted, the callback resolves the surrounding promise and returns
`new Promise(() => {})`, so the inner lock is never released; the run
then continues.  When not granted (`lock` is `null`), the callback
rejects with `new Error('failed to acquire inner lock')`. -/
def markerPhase (exclusiveParam : Bool) (env : Env) :
    List Event × Except CoordError Unit :=
  let m := markerMode exclusiveParam
  if env.markerGranted then
    ([.request .markerSite .inner m true true], .ok ())
  else
    ([.request .markerSite .inner m true false], .error .markerAcquisitionFailed)

/-- Lines 126-177 of `demo-worker.js`: the function `maybeReset`,
returning the sequence of broker events of the run and its result.

* `resetParam` is `searchParams.has('reset')`, `exclusiveParam` is
  `searchParams.has('exclusive')`.
* If `resetParam` is false the body is skipped entirely.
* The outer lock request (line 129) is blocking, default mode
  `exclusive`; the run continues once it is granted.
* The probe (line 136) is `ifAvailable`, default mode `exclusive`.
  When granted, the delegate runs and the inner lock is released when
  the callback promise settles — also when the delegate rejects, in
  which case the awaited request rejects and `maybeReset` exits with
  that error, never reaching lines 163-175, so the outer lock is not
  released.  When not granted, `console.warn` fires and the run
  continues.
* The marker phase is `markerPhase` above.  On its failure the
  rejection again propagates before line 175, leaving the outer lock
  held.  On success, `outerLockReleaser()` at line 175 releases the
  outer lock. -/
def maybeReset (resetParam exclusiveParam : Bool) (env : Env) :
    List Event × Except CoordError Unit :=
  if resetParam then
    let outerAcq : List Event := [.request .outerSite .outer .exclusive false true]
    if env.innerProbeGranted then
      let probePart : List Event :=
        [.request .probeSite .inner .exclusive true true,
         .delegateRun env.delegateOk, .release .inner]
      if env.delegateOk then
        let mp := markerPhase exclusiveParam env
        if mp.2 = .ok () then
          (outerAcq ++ probePart ++ mp.1 ++ [.release .outer], .ok ())
        else
          (outerAcq ++ probePart ++ mp.1, mp.2)
      else
        (outerAcq ++ probePart, .error .delegateFailed)
    else
      let skipPart : List Event :=
        [.request .probeSite .inner .exclusive true false, .warn]
      let mp := markerPhase exclusiveParam env
      if mp.2 = .ok () then
        (outerAcq ++ skipPart ++ mp.1 ++ [.release .outer], .ok ())
      else
        (outerAcq ++ skipPart ++ mp.1, mp.2)
  else
    ([], .ok ())

/-- Whether the run ended without a rejection. -/
def resultOk : Except CoordError Unit → Bool
  | .ok _ => true
  | .error _ => false

example :
    maybeReset true false ⟨true, true, true⟩ =
      ([.request .outerSite .outer .exclusive false true,
        .request .probeSite .inner .exclusive true true,
        .delegateRun true, .release .inner,
        .request .markerSite .inner .shared true true,
        .release .outer], .ok ()) := by decide

example :
    maybeReset true true ⟨true, false, true⟩ =
      ([.request .outerSite .outer .exclusive false true,
        .request .probeSite .inner .exclusive true true,
        .delegateRun false, .release .inner], .error .delegateFailed) := by decide

example :
    maybeReset true false ⟨false, true, false⟩ =
      ([.request .outerSite .outer .exclusive false true,
        .request .probeSite .inner .exclusive true false, .warn,
        .request .markerSite .inner .shared true false],
       .error .markerAcquisitionFailed) := by decide

/-- Whether the trace contains no destructive-delegate execution. -/
def noDelegateRun (t : List Event) : Bool :=
  t.all fun ev => match ev with
    | .delegateRun _ => false
    | _ => true

/-- Whether every lock request issued from the marker call site
(line 165) carries `ifAvailable: true`. -/
def markerRequestsNonblocking (t : List Event) : Bool :=
  t.all fun ev => match ev with
    | .request .markerSite _ _ ia _ => ia
    | _ => true

/-- Whether the trace contains a lock request from the marker call
site (line 165), i.e. the run reached the mark-in-use phase. -/
def hasMarkerRequest (t : List Event) : Bool :=
  t.any fun ev => match ev with
    | .request .markerSite _ _ _ _ => true
    | _ => false

/-- Whether the event is a granted marker-site request. -/
def isMarkerGrant : Event → Bool
  | .request .markerSite _ _ _ true => true
  | _ => false

/-- Whether every marker-site request uses exactly the mode computed
from the `exclusive` search parameter. -/
def markerRequestModesMatch (exclusiveParam : Bool) (t : List Event) : Bool :=
  t.all fun ev => match ev with
    | .request .markerSite _ m _ _ => m == markerMode exclusiveParam
    | _ => true

/-- Erase the mode of marker-site requests, leaving all other events
(and all other fields) intact. -/
def eraseMarkerMode : Event → Event
  | .request .markerSite n _ ia g => .request .markerSite n .shared ia g
  | ev => ev

/-- C1, counterexample: in the run with a reset requested where the
probe is granted and the destructive delegate fails, the outer lock is
acquired but `maybeReset` returns (rejects) without ever releasing it
— `outerLockReleaser()` at line 175 is skipped by the propagating
rejection.  This refutes the claim that no error path leaves the outer
lock held. -/
theorem C1_outer_leak_counterexample :
    Event.request .outerSite .outer .exclusive false true
        ∈ (maybeReset true false ⟨true, false, true⟩).1 ∧
      Event.release .outer ∉ (maybeReset true false ⟨true, false, true⟩).1 ∧
      (maybeReset true false ⟨true, false, true⟩).2 =
        .error .delegateFailed := by decide

/-- C1, amended: the outer lock release happens exactly on the runs
that end successfully — on success and on a skipped reset the outer
lock is released before `maybeReset` returns, but when the destructive
delegate fails or the final marker acquisition fails, the rejection
propagates before line 175 and the outer lock is left held. -/
theorem C1_outer_release_iff_success :
    ∀ r e pe de me : Bool,
      Event.release .outer ∈ (maybeReset r e ⟨pe, de, me⟩).1 ↔
        r = true ∧ resultOk (maybeReset r e ⟨pe, de, me⟩).2 = true := by
  decide

/-- C2, counterexample: the final marker acquisition at line 165 is
issued with `ifAvailable: true` (a non-blocking probe), and on a run
reaching the mark-in-use phase while the lock is unavailable the
protocol rejects with the marker-acquisition error instead of waiting
for the lock.  This refutes the claim that the final acquisition is
blocking. -/
theorem C2_marker_probe_counterexample :
    Event.request .markerSite .inner .shared true true
        ∈ (maybeReset true false ⟨true, true, true⟩).1 ∧
      (maybeReset true false ⟨true, true, false⟩).2 =
        .error .markerAcquisitionFailed := by decide

/-- C2, amended: every marker-site request in every run carries
`ifAvailable: true` (non-blocking), and a run attempts the marker
acquisition while the lock is unavailable exactly when it fails with
the marker-acquisition error — it fails fast rather than waiting. -/
theorem C2_marker_nonblocking_fail_fast :
    ∀ r e pe de me : Bool,
      markerRequestsNonblocking ((maybeReset r e ⟨pe, de, me⟩).1) = true ∧
        (hasMarkerRequest ((maybeReset r e ⟨pe, de, false⟩).1) = true ↔
          (maybeReset r e ⟨pe, de, false⟩).2 =
            .error .markerAcquisitionFailed) := by decide

/-- C3, counterexample: in the successful reset run, the marker-site
acquisition of the inner lock occurs strictly before the outer lock is
released — the opposite of the claimed order (outer release first,
then marker acquisition). -/
theorem C3_order_counterexample :
    (maybeReset true true ⟨true, true, true⟩).1.indexOf
        (.request .markerSite .inner .exclusive true true) <
      (maybeReset true true ⟨true, true, true⟩).1.indexOf (.release .outer) ∧
      Event.release .outer ∈ (maybeReset true true ⟨true, true, true⟩).1 := by
  decide

/-- C3, amended: the final marker acquisition is performed while the
outer lock is still held; in every run, no outer-lock release occurs
before the first granted marker-site request (line 175 runs only after
lines 163-173 resolve). -/
theorem C3_outer_released_after_marker :
    ∀ r e pe de me : Bool,
      Event.release .outer ∉
        ((maybeReset r e ⟨pe, de, me⟩).1.takeWhile
          fun ev => !isMarkerGrant ev) := by decide

/-- C5: in every run with a reset requested whose non-blocking inner
probe returns unavailable, the destructive delegate never runs, the
warning is emitted, the run proceeds to the mark-in-use phase, the
result is never the delegate-failure error, and when the marker is
available the run completes successfully — the skip is not reported as
a failure. -/
theorem C5_skip_on_contention :
    ∀ e de me : Bool,
      noDelegateRun ((maybeReset true e ⟨false, de, me⟩).1) = true ∧
        Event.warn ∈ (maybeReset true e ⟨false, de, me⟩).1 ∧
        hasMarkerRequest ((maybeReset true e ⟨false, de, me⟩).1) = true ∧
        ((maybeReset true e ⟨false, de, me⟩).2 ==
          Except.error CoordError.delegateFailed) = false ∧
        (maybeReset true e ⟨false, de, true⟩).2 = .ok () := by decide

/-- C6: when no reset is requested, `maybeReset` performs zero broker
calls (its event trace is empty, so in particular the delegate never
runs) and returns successfully. -/
theorem C6_no_reset_no_locking :
    ∀ e pe de me : Bool,
      maybeReset false e ⟨pe, de, me⟩ = ([], .ok ()) := by decide

/-- C8: in every run whose inner probe is granted, the events open
with the outer acquisition, the granted probe, the delegate run, and
then immediately the release of the inner lock — the inner probe lock
is released as soon as the probe-and-reset phase ends, whether the
delegate succeeds or fails; on delegate failure these four events are
the whole trace, so the probe acquisition is never retained as a
marker. -/
theorem C8_probe_lock_released :
    ∀ e de me : Bool,
      (maybeReset true e ⟨true, de, me⟩).1.take 4 =
        [.request .outerSite .outer .exclusive false true,
         .request .probeSite .inner .exclusive true true,
         .delegateRun de, .release .inner] ∧
      (maybeReset true e ⟨true, false, me⟩).1 =
        [.request .outerSite .outer .exclusive false true,
         .request .probeSite .inner .exclusive true true,
         .delegateRun false, .release .inner] := by decide

/-- C9: every marker-site request uses exactly the caller-specified
mode — exclusive when the `exclusive` search parameter is present,
shared otherwise — and runs reaching the mark-in-use phase do issue
such a request in that mode. -/
theorem C9_marker_mode :
    ∀ r e pe de me : Bool,
      markerRequestModesMatch e ((maybeReset r e ⟨pe, de, me⟩).1) = true ∧
        Event.request .markerSite .inner .exclusive true true
          ∈ (maybeReset true true ⟨false, de, true⟩).1 ∧
        Event.request .markerSite .inner .shared true true
          ∈ (maybeReset true false ⟨false, de, true⟩).1 := by decide

/-- C10: the `exclusive` search parameter influences only the mode of
the marker-site request: two runs that differ only in it produce the
same result and event traces that agree after erasing the marker-site
mode — so the outer acquisition, the inner probe, and the
perform-or-skip decision are identical. -/
theorem C10_marker_mode_noninterference :
    ∀ r pe de me : Bool,
      (maybeReset r true ⟨pe, de, me⟩).1.map eraseMarkerMode =
          (maybeReset r false ⟨pe, de, me⟩).1.map eraseMarkerMode ∧
        (maybeReset r true ⟨pe, de, me⟩).2 =
          (maybeReset r false ⟨pe, de, me⟩).2 := by decide

/-!
Multi-context model.

Several workers run `maybeReset` concurrently against one Web Locks
broker.  Each context is a separate worker with its own search
parameters; the broker state is who currently holds
`demo-worker-outer` (exclusive only, at most one holder) and what hold
each context has on `demo-worker-inner`.  The suspension points of the
source — the two `navigator.locks.request` calls awaited, the delegate,
and the releaser call — become the atomic transitions below.
-/

/-- Control point of one execution context inside `maybeReset`:
before line 127; awaiting the outer grant (lines 128-134); about to
issue the probe (line 136); running the destructive delegate with the
probe lock held (lines 138-157); about to issue the marker request
(line 165); between the marker grant and `outerLockReleaser()`
(lines 167-175); returned successfully; rejected; and terminated
(worker exit, which implicitly releases all Web Locks it held). -/
inductive Phase
  | start
  | waitingOuter
  | probing
  | inDelegate
  | marking
  | releasingOuter
  | doneOk
  | doneErr
  | exited
deriving DecidableEq, Repr

/-- One execution context: its two search parameters and its current
control point. -/
structure Ctx where
  resetParam : Bool
  exclusiveParam : Bool
  phase : Phase
deriving DecidableEq, Repr

/-- Replace the control point, keeping the parameters. -/
def Ctx.setPhase (c : Ctx) (p : Phase) : Ctx :=
  { c with phase := p }

@[simp] theorem Ctx.setPhase_phase (c : Ctx) (p : Phase) :
    (c.setPhase p).phase = p := rfl

@[simp] theorem Ctx.setPhase_resetParam (c : Ctx) (p : Phase) :
    (c.setPhase p).resetParam = c.resetParam := rfl

@[simp] theorem Ctx.setPhase_exclusiveParam (c : Ctx) (p : Phase) :
    (c.setPhase p).exclusiveParam = c.exclusiveParam := rfl

/-- Global state of `n` contexts and the lock broker.  `outerHolder`
is the context currently granted `demo-worker-outer` (always requested
exclusive, so at most one).  `innerHolders i` is context `i`'s current
hold on `demo-worker-inner`, if any. -/
structure Sys (n : Nat) where
  ctxs : Fin n → Ctx
  outerHolder : Option (Fin n)
  innerHolders : Fin n → Option LockMode

/-- Web Locks grant rule for `demo-worker-inner`: an exclusive request
is granted only when nobody holds the name; a shared request only when
nobody holds it exclusively (standard readers/writer semantics). -/
def grantable {n : Nat} (m : LockMode) (h : Fin n → Option LockMode) : Prop :=
  match m with
  | .exclusive => ∀ j, h j = none
  | .shared => ∀ j, h j ≠ some LockMode.exclusive

instance {n : Nat} (m : LockMode) (h : Fin n → Option LockMode) :
    Decidable (grantable m h) :=
  match m with
  | .exclusive => inferInstanceAs (Decidable (∀ j, h j = none))
  | .shared => inferInstanceAs (Decidable (∀ j, h j ≠ some LockMode.exclusive))

/-- Move context `i` to control point `p`, broker state unchanged. -/
def Sys.setPhaseOf {n : Nat} (s : Sys n) (i : Fin n) (p : Phase) : Sys n :=
  { s with ctxs := Function.update s.ctxs i ((s.ctxs i).setPhase p) }

/-- Replace the holder of the outer lock. -/
def Sys.setOuter {n : Nat} (s : Sys n) (o : Option (Fin n)) : Sys n :=
  { s with outerHolder := o }

/-- Replace context `i`'s hold on the inner lock. -/
def Sys.setInner {n : Nat} (s : Sys n) (i : Fin n) (v : Option LockMode) : Sys n :=
  { s with innerHolders := Function.update s.innerHolders i v }

@[simp] theorem Sys.setPhaseOf_ctxs {n : Nat} (s : Sys n) (i : Fin n) (p : Phase) :
    (s.setPhaseOf i p).ctxs = Function.update s.ctxs i ((s.ctxs i).setPhase p) := rfl

@[simp] theorem Sys.setPhaseOf_outerHolder {n : Nat} (s : Sys n) (i : Fin n) (p : Phase) :
    (s.setPhaseOf i p).outerHolder = s.outerHolder := rfl

@[simp] theorem Sys.setPhaseOf_innerHolders {n : Nat} (s : Sys n) (i : Fin n) (p : Phase) :
    (s.setPhaseOf i p).innerHolders = s.innerHolders := rfl

@[simp] theorem Sys.setOuter_ctxs {n : Nat} (s : Sys n) (o : Option (Fin n)) :
    (s.setOuter o).ctxs = s.ctxs := rfl

@[simp] theorem Sys.setOuter_outerHolder {n : Nat} (s : Sys n) (o : Option (Fin n)) :
    (s.setOuter o).outerHolder = o := rfl

@[simp] theorem Sys.setOuter_innerHolders {n : Nat} (s : Sys n) (o : Option (Fin n)) :
    (s.setOuter o).innerHolders = s.innerHolders := rfl

@[simp] theorem Sys.setInner_ctxs {n : Nat} (s : Sys n) (i : Fin n) (v : Option LockMode) :
    (s.setInner i v).ctxs = s.ctxs := rfl

@[simp] theorem Sys.setInner_outerHolder {n : Nat} (s : Sys n) (i : Fin n) (v : Option LockMode) :
    (s.setInner i v).outerHolder = s.outerHolder := rfl

@[simp] theorem Sys.setInner_innerHolders {n : Nat} (s : Sys n) (i : Fin n) (v : Option LockMode) :
    (s.setInner i v).innerHolders = Function.update s.innerHolders i v := rfl

/-- One atomic transition of the concurrent system.  Each constructor
is one suspension-point-to-suspension-point segment of `maybeReset`:

* `startNoReset` / `startReset`: line 127, the `searchParams.has('reset')` test;
* `acquireOuter`: the blocking exclusive grant of `demo-worker-outer`
  (lines 128-134), only when nobody holds it;
* `probeGranted` / `probeUnavailable`: the `ifAvailable` exclusive
  request of `demo-worker-inner` (line 136), granted exactly when the
  name is free, otherwise the callback gets `null` (warn at line 159);
* `delegateDone`: the destructive clearing (lines 138-157) finishing,
  with or without an error; either way the callback promise settles and
  Web Locks releases the probe lock; on error `maybeReset` rejects
  (line 136's await) and the outer lock stays held;
* `markerGranted`: the `ifAvailable` request at line 165 in the mode of
  line 164, granted; the callback never settles so the lock is kept;
* `markerUnavailable`: the same request not granted; the promise at
  line 163 rejects and the outer lock stays held;
* `releaseOuterLock`: `outerLockReleaser()` at line 175;
* `exitCtx`: the worker terminates; the browser releases every Web Lock
  it still holds. -/
inductive Step {n : Nat} : Sys n → Sys n → Prop
  | startNoReset (s : Sys n) (i : Fin n) :
      (s.ctxs i).phase = .start → (s.ctxs i).resetParam = false →
      Step s (s.setPhaseOf i .doneOk)
  | startReset (s : Sys n) (i : Fin n) :
      (s.ctxs i).phase = .start → (s.ctxs i).resetParam = true →
      Step s (s.setPhaseOf i .waitingOuter)
  | acquireOuter (s : Sys n) (i : Fin n) :
      (s.ctxs i).phase = .waitingOuter → s.outerHolder = none →
      Step s ((s.setPhaseOf i .probing).setOuter (some i))
  | probeGranted (s : Sys n) (i : Fin n) :
      (s.ctxs i).phase = .probing → grantable .exclusive s.innerHolders →
      Step s ((s.setPhaseOf i .inDelegate).setInner i (some .exclusive))
  | probeUnavailable (s : Sys n) (i : Fin n) :
      (s.ctxs i).phase = .probing → ¬ grantable .exclusive s.innerHolders →
      Step s (s.setPhaseOf i .marking)
  | delegateDone (s : Sys n) (i : Fin n) (ok : Bool) :
      (s.ctxs i).phase = .inDelegate →
      Step s ((s.setPhaseOf i (if ok then .marking else .doneErr)).setInner i none)
  | markerGranted (s : Sys n) (i : Fin n) :
      (s.ctxs i).phase = .marking →
      grantable (markerMode (s.ctxs i).exclusiveParam) s.innerHolders →
      Step s ((s.setPhaseOf i .releasingOuter).setInner i
        (some (markerMode (s.ctxs i).exclusiveParam)))
  | markerUnavailable (s : Sys n) (i : Fin n) :
      (s.ctxs i).phase = .marking →
      ¬ grantable (markerMode (s.ctxs i).exclusiveParam) s.innerHolders →
      Step s (s.setPhaseOf i .doneErr)
  | releaseOuterLock (s : Sys n) (i : Fin n) :
      (s.ctxs i).phase = .releasingOuter → s.outerHolder = some i →
      Step s ((s.setPhaseOf i .doneOk).setOuter none)
  | exitCtx (s : Sys n) (i : Fin n) :
      (s.ctxs i).phase = .doneOk ∨ (s.ctxs i).phase = .doneErr →
      Step s (((s.setPhaseOf i .exited).setInner i none).setOuter
        (if s.outerHolder = some i then none else s.outerHolder))

/-- Initial state: every context at its start, no locks held.  Each
context's pair gives its `reset` and `exclusive` search parameters. -/
def initSys {n : Nat} (params : Fin n → Bool × Bool) : Sys n where
  ctxs := fun i => ⟨(params i).1, (params i).2, .start⟩
  outerHolder := none
  innerHolders := fun _ => none

/-- States reachable from the initial state by interleaved protocol
steps of the `n` contexts. -/
abbrev Reachable {n : Nat} (params : Fin n → Bool × Bool) (s : Sys n) : Prop :=
  Relation.ReflTransGen Step (initSys params) s

/-- Control points at which a context holds the outer lock: from the
outer grant (line 134) to either the releaser call (line 175) or a
rejection. -/
def holdsOuterPhase : Phase → Bool
  | .probing => true
  | .inDelegate => true
  | .marking => true
  | .releasingOuter => true
  | _ => false

/-- Inductive invariant: (a) a context past the outer grant and not
yet past release/rejection is the outer-lock holder, so there is at
most one such context; (b) a context that obtained its marker (from
line 167 on) still holds the inner lock in its caller-specified
mode. -/
def SysInv {n : Nat} (s : Sys n) : Prop :=
  (∀ i, holdsOuterPhase (s.ctxs i).phase = true → s.outerHolder = some i) ∧
  (∀ i, (s.ctxs i).resetParam = true →
    ((s.ctxs i).phase = Phase.releasingOuter ∨ (s.ctxs i).phase = Phase.doneOk) →
    s.innerHolders i = some (markerMode (s.ctxs i).exclusiveParam))

theorem inv_init {n : Nat} (params : Fin n → Bool × Bool) : SysInv (initSys params) := by
  constructor
  · intro i hi
    simp [initSys, holdsOuterPhase] at hi
  · intro i _ hp
    simp [initSys] at hp

theorem sysInv_step {n : Nat} {s s' : Sys n} (hs : SysInv s) (h : Step s s') :
    SysInv s' := by
  obtain ⟨hA, hB⟩ := hs
  cases h with
  | startNoReset i hp hr =>
    refine ⟨fun k hk => ?_, fun k hrk hpk => ?_⟩
    · by_cases hki : k = i
      · subst hki
        simp [holdsOuterPhase] at hk
      · simp only [Sys.setPhaseOf_ctxs, Function.update_noteq hki,
          Sys.setPhaseOf_outerHolder] at hk ⊢
        exact hA k hk
    · by_cases hki : k = i
      · subst hki
        simp only [Sys.setPhaseOf_ctxs, Function.update_same,
          Ctx.setPhase_resetParam] at hrk
        rw [hr] at hrk
        cases hrk
      · simp only [Sys.setPhaseOf_ctxs, Function.update_noteq hki,
          Sys.setPhaseOf_innerHolders] at hrk hpk ⊢
        exact hB k hrk hpk
  | startReset i hp hr =>
    refine ⟨fun k hk => ?_, fun k hrk hpk => ?_⟩
    · by_cases hki : k = i
      · subst hki
        simp [holdsOuterPhase] at hk
      · simp only [Sys.setPhaseOf_ctxs, Function.update_noteq hki,
          Sys.setPhaseOf_outerHolder] at hk ⊢
        exact hA k hk
    · by_cases hki : k = i
      · subst hki
        simp at hpk
      · simp only [Sys.setPhaseOf_ctxs, Function.update_noteq hki,
          Sys.setPhaseOf_innerHolders] at hrk hpk ⊢
        exact hB k hrk hpk
  | acquireOuter i hp ho =>
    refine ⟨fun k hk => ?_, fun k hrk hpk => ?_⟩
    · by_cases hki : k = i
      · subst hki
        simp
      · simp only [Sys.setOuter_ctxs, Sys.setPhaseOf_ctxs,
          Function.update_noteq hki, Sys.setOuter_outerHolder] at hk ⊢
        have hc := hA k hk
        rw [ho] at hc
        simp at hc
    · by_cases hki : k = i
      · subst hki
        simp at hpk
      · simp only [Sys.setOuter_ctxs, Sys.setPhaseOf_ctxs,
          Function.update_noteq hki, Sys.setOuter_innerHolders,
          Sys.setPhaseOf_innerHolders] at hrk hpk ⊢
        exact hB k hrk hpk
  | probeGranted i hp hg =>
    refine ⟨fun k hk => ?_, fun k hrk hpk => ?_⟩
    · by_cases hki : k = i
      · subst hki
        simp only [Sys.setInner_outerHolder, Sys.setPhaseOf_outerHolder]
        exact hA k (by rw [hp]; rfl)
      · simp only [Sys.setInner_ctxs, Sys.setPhaseOf_ctxs,
          Function.update_noteq hki, Sys.setInner_outerHolder,
          Sys.setPhaseOf_outerHolder] at hk ⊢
        exact hA k hk
    · by_cases hki : k = i
      · subst hki
        simp at hpk
      · simp only [Sys.setInner_ctxs, Sys.setPhaseOf_ctxs,
          Function.update_noteq hki, Sys.setInner_innerHolders,
          Sys.setPhaseOf_innerHolders] at hrk hpk ⊢
        exact hB k hrk hpk
  | probeUnavailable i hp hg =>
    refine ⟨fun k hk => ?_, fun k hrk hpk => ?_⟩
    · by_cases hki : k = i
      · subst hki
        simp only [Sys.setPhaseOf_outerHolder]
        exact hA k (by rw [hp]; rfl)
      · simp only [Sys.setPhaseOf_ctxs, Function.update_noteq hki,
          Sys.setPhaseOf_outerHolder] at hk ⊢
        exact hA k hk
    · by_cases hki : k = i
      · subst hki
        simp at hpk
      · simp only [Sys.setPhaseOf_ctxs, Function.update_noteq hki,
          Sys.setPhaseOf_innerHolders] at hrk hpk ⊢
        exact hB k hrk hpk
  | delegateDone i ok hp =>
    refine ⟨fun k hk => ?_, fun k hrk hpk => ?_⟩
    · by_cases hki : k = i
      · subst hki
        simp only [Sys.setInner_ctxs, Sys.setPhaseOf_ctxs,
          Function.update_same, Ctx.setPhase_phase, Sys.setInner_outerHolder,
          Sys.setPhaseOf_outerHolder] at hk ⊢
        cases ok with
        | true => exact hA k (by rw [hp]; rfl)
        | false => simp [holdsOuterPhase] at hk
      · simp only [Sys.setInner_ctxs, Sys.setPhaseOf_ctxs,
          Function.update_noteq hki, Sys.setInner_outerHolder,
          Sys.setPhaseOf_outerHolder] at hk ⊢
        exact hA k hk
    · by_cases hki : k = i
      · subst hki
        simp only [Sys.setInner_ctxs, Sys.setPhaseOf_ctxs,
          Function.update_same, Ctx.setPhase_phase] at hpk
        cases ok with
        | true => simp at hpk
        | false => simp at hpk
      · simp only [Sys.setInner_ctxs, Sys.setPhaseOf_ctxs,
          Function.update_noteq hki, Sys.setInner_innerHolders,
          Sys.setPhaseOf_innerHolders] at hrk hpk ⊢
        exact hB k hrk hpk
  | markerGranted i hp hg =>
    refine ⟨fun k hk => ?_, fun k hrk hpk => ?_⟩
    · by_cases hki : k = i
      · subst hki
        simp only [Sys.setInner_outerHolder, Sys.setPhaseOf_outerHolder]
        exact hA k (by rw [hp]; rfl)
      · simp only [Sys.setInner_ctxs, Sys.setPhaseOf_ctxs,
          Function.update_noteq hki, Sys.setInner_outerHolder,
          Sys.setPhaseOf_outerHolder] at hk ⊢
        exact hA k hk
    · by_cases hki : k = i
      · subst hki
        simp
      · simp only [Sys.setInner_ctxs, Sys.setPhaseOf_ctxs,
          Function.update_noteq hki, Sys.setInner_innerHolders,
          Sys.setPhaseOf_innerHolders] at hrk hpk ⊢
        exact hB k hrk hpk
  | markerUnavailable i hp hg =>
    refine ⟨fun k hk => ?_, fun k hrk hpk => ?_⟩
    · by_cases hki : k = i
      · subst hki
        simp [holdsOuterPhase] at hk
      · simp only [Sys.setPhaseOf_ctxs, Function.update_noteq hki,
          Sys.setPhaseOf_outerHolder] at hk ⊢
        exact hA k hk
    · by_cases hki : k = i
      · subst hki
        simp at hpk
      · simp only [Sys.setPhaseOf_ctxs, Function.update_noteq hki,
          Sys.setPhaseOf_innerHolders] at hrk hpk ⊢
        exact hB k hrk hpk
  | releaseOuterLock i hp ho =>
    refine ⟨fun k hk => ?_, fun k hrk hpk => ?_⟩
    · by_cases hki : k = i
      · subst hki
        simp [holdsOuterPhase] at hk
      · simp only [Sys.setOuter_ctxs, Sys.setPhaseOf_ctxs,
          Function.update_noteq hki, Sys.setOuter_outerHolder] at hk ⊢
        have hc := hA k hk
        rw [ho] at hc
        injection hc with hik
        exact (hki hik.symm).elim
    · by_cases hki : k = i
      · subst hki
        simp only [Sys.setOuter_ctxs, Sys.setPhaseOf_ctxs,
          Function.update_same, Ctx.setPhase_resetParam,
          Sys.setOuter_innerHolders, Sys.setPhaseOf_innerHolders,
          Ctx.setPhase_exclusiveParam] at hrk ⊢
        exact hB k hrk (Or.inl hp)
      · simp only [Sys.setOuter_ctxs, Sys.setPhaseOf_ctxs,
          Function.update_noteq hki, Sys.setOuter_innerHolders,
          Sys.setPhaseOf_innerHolders] at hrk hpk ⊢
        exact hB k hrk hpk
  | exitCtx i hd =>
    refine ⟨fun k hk => ?_, fun k hrk hpk => ?_⟩
    · by_cases hki : k = i
      · subst hki
        simp [holdsOuterPhase] at hk
      · simp only [Sys.setOuter_ctxs, Sys.setInner_ctxs, Sys.setPhaseOf_ctxs,
          Function.update_noteq hki, Sys.setOuter_outerHolder] at hk ⊢
        have hc := hA k hk
        rw [hc]
        simp [Option.some.injEq]
        intro hik
        exact (hki hik).elim
    · by_cases hki : k = i
      · subst hki
        simp at hpk
      · simp only [Sys.setOuter_ctxs, Sys.setInner_ctxs, Sys.setPhaseOf_ctxs,
          Function.update_noteq hki, Sys.setOuter_innerHolders,
          Sys.setInner_innerHolders, Sys.setPhaseOf_innerHolders] at hrk hpk ⊢
        exact hB k hrk hpk

theorem reachable_sysInv {n : Nat} (params : Fin n → Bool × Bool) {s : Sys n}
    (h : Reachable params s) : SysInv s := by
  induction h with
  | refl => exact inv_init params
  | tail _ hstep ih => exact sysInv_step ih hstep

/-- C4: in every reachable state of any number of concurrent contexts,
at most one context is executing the destructive-reset delegate: two
contexts that both requested a reset and are both at the delegate
control point are the same context.  The exclusive outer lock
serializes the probe-and-reset phase. -/
theorem C4_delegate_mutual_exclusion {n : Nat} (params : Fin n → Bool × Bool)
    (s : Sys n) (h : Reachable params s) (i j : Fin n)
    (_hri : (s.ctxs i).resetParam = true) (_hrj : (s.ctxs j).resetParam = true)
    (hi : (s.ctxs i).phase = .inDelegate) (hj : (s.ctxs j).phase = .inDelegate) :
    i = j := by
  obtain ⟨hA, _⟩ := reachable_sysInv params h
  have h1 := hA i (by rw [hi]; rfl)
  have h2 := hA j (by rw [hj]; rfl)
  rw [h1] at h2
  injection h2

/-- C7: in every reachable state, a context that completed a
reset-requested run successfully (control point after line 175) still
holds the inner marker lock in its caller-specified mode — the
protocol never released it — and consequently no exclusive probe of
the inner lock can be granted while it is in that state; only the
context's own exit transition frees the marker. -/
theorem C7_marker_retained {n : Nat} (params : Fin n → Bool × Bool)
    (s : Sys n) (h : Reachable params s) (i : Fin n)
    (hok : (s.ctxs i).phase = .doneOk) (hr : (s.ctxs i).resetParam = true) :
    s.innerHolders i = some (markerMode (s.ctxs i).exclusiveParam) ∧
      ¬ grantable .exclusive s.innerHolders := by
  obtain ⟨_, hB⟩ := reachable_sysInv params h
  have h1 := hB i hr (Or.inr hok)
  refine ⟨h1, fun hg => ?_⟩
  have h2 := hg i
  rw [h1] at h2
  cases h2

/-- Parameters for a concrete two-context scenario: both contexts have
`reset` set and `exclusive` unset. -/
def demoParams : Fin 2 → Bool × Bool := fun _ => (true, false)

/-- Context 0 has taken the reset branch. -/
def demoS1 : Sys 2 := (initSys demoParams).setPhaseOf 0 .waitingOuter

/-- Context 0 has been granted the outer lock. -/
def demoS2 : Sys 2 := (demoS1.setPhaseOf 0 .probing).setOuter (some 0)

/-- Context 0's probe was granted; it is running the delegate. -/
def demoS3 : Sys 2 := (demoS2.setPhaseOf 0 .inDelegate).setInner 0 (some .exclusive)

/-- Context 0's delegate completed; the probe lock was released. -/
def demoS4 : Sys 2 :=
  (demoS3.setPhaseOf 0 (if true then Phase.marking else Phase.doneErr)).setInner 0 none

/-- Context 0 was granted its marker. -/
def demoS5 : Sys 2 :=
  (demoS4.setPhaseOf 0 .releasingOuter).setInner 0
    (some (markerMode ((demoS4.ctxs 0).exclusiveParam)))

/-- Context 0 released the outer lock and returned successfully. -/
def demoS6 : Sys 2 := (demoS5.setPhaseOf 0 .doneOk).setOuter none

theorem demo_reach3 : Reachable demoParams demoS3 := by
  have h1 : Step (initSys demoParams) demoS1 :=
    Step.startReset _ 0 (by decide) (by decide)
  have h2 : Step demoS1 demoS2 :=
    Step.acquireOuter _ 0 (by decide) (by decide)
  have h3 : Step demoS2 demoS3 :=
    Step.probeGranted _ 0 (by decide) (by decide)
  exact Relation.ReflTransGen.tail
    (Relation.ReflTransGen.tail
      (Relation.ReflTransGen.tail Relation.ReflTransGen.refl h1) h2) h3

theorem demo_reach6 : Reachable demoParams demoS6 := by
  have h4 : Step demoS3 demoS4 :=
    Step.delegateDone _ 0 true (by decide)
  have h5 : Step demoS4 demoS5 :=
    Step.markerGranted _ 0 (by decide) (by decide)
  have h6 : Step demoS5 demoS6 :=
    Step.releaseOuterLock _ 0 (by decide) (by decide)
  exact Relation.ReflTransGen.tail
    (Relation.ReflTransGen.tail
      (Relation.ReflTransGen.tail demo_reach3 h4) h5) h6

/-- C4 witness: the mutual-exclusion theorem applied to a concrete
reachable state in which context 0 is executing the delegate. -/
theorem C4_delegate_mutual_exclusion_witness : (0 : Fin 2) = 0 :=
  C4_delegate_mutual_exclusion demoParams demoS3 demo_reach3 0 0
    (by decide) (by decide) (by decide) (by decide)

/-- C7 witness: the marker-retention theorem applied to a concrete
reachable state in which context 0 has completed its run. -/
theorem C7_marker_retained_witness :
    demoS6.innerHolders 0 = some (markerMode ((demoS6.ctxs 0).exclusiveParam)) ∧
      ¬ grantable .exclusive demoS6.innerHolders :=
  C7_marker_retained demoParams demoS6 demo_reach6 0 (by decide) (by decide)
